import Mathlib

/-!
Shallow embedding of the gelbooru-api Rust client (request-construction and
response-mapping layer) and proofs about its specification claims.

Conventions of the embedding:
* Rust functions that can panic (`unreachable!`, `expect`, slice-index panics)
  are modelled with the `PanicOr` type below: `PanicOr.panic msg` is an
  unrecoverable abort, `PanicOr.ok v` a normal return.  Rust `Result` values
  are modelled with `Except`.
* Rust `String`/`&str` values are modelled as Lean `String`; byte indices are
  conflated with character indices, which agrees with the source for all ASCII
  data (every string manipulated by the library's own logic is ASCII).
* `usize`/`u64` are modelled as `Nat` with explicit range checks where the
  source's integer parsing can overflow.
-/

namespace Gelbooru

/-- Result of a Rust computation that can panic: `panic` models an
unrecoverable process abort (`unreachable!`, `expect`, slice-index panic),
`ok` a normal return. -/
inductive PanicOr (α : Type) where
  | panic (msg : String) : PanicOr α
  | ok (a : α) : PanicOr α
deriving DecidableEq, Repr

/-- The library error enum from `src/lib.rs` (payloads of the variants carry
no information relevant to control flow and are dropped). Note it has no
MappingDefect-style variant. -/
inductive Error where
  | ParseAuth
  | ParseUserId
  | Request
  | JsonDeserialize
  | UriParse
deriving DecidableEq, Repr

/-- First index at which `pat` occurs in `hay`, scanning left to right;
models Rust `str::find` for a substring pattern (character positions,
which coincide with byte positions on ASCII input). -/
def findSub (hay pat : List Char) : Option Nat :=
  (List.range (hay.length + 1)).find? (fun i => (hay.drop i).take pat.length == pat)

/-- Models Rust `str::parse::<usize>` on a character list: an optional
leading `+` sign followed by one or more ASCII digits, rejecting values
that overflow 64 bits. Returns `none` on any malformed input. -/
def parseUsize (cs : List Char) : Option Nat :=
  let body := match cs with
    | '+' :: rest => rest
    | _ => cs
  if body.isEmpty ∨ ¬ body.all Char.isDigit then none
  else
    let n := body.foldl (fun acc c => acc * 10 + (c.toNat - 48)) 0
    if n < 2 ^ 64 then some n else none

/-- Parsed API credentials (`AuthDetails` in `src/lib.rs`). -/
structure AuthDetails where
  user : Nat
  key : String
deriving DecidableEq, Repr

/-- Embeds `AuthDetails::from_query_string` (src/lib.rs:23-32).  The Rust
code finds the `&user_id=` marker (error `ParseAuth` when absent), parses
the text after it as the user id (error `ParseUserId` on failure), and then
takes `qs[9..user_start]` as the key — a slice that panics when the marker
starts before index 9. -/
def AuthDetails.from_query_string (qs : String) : PanicOr (Except Error AuthDetails) :=
  let cs := qs.toList
  match findSub cs "&user_id=".toList with
  | none => .ok (.error .ParseAuth)
  | some user_start =>
    let user_raw := cs.drop (user_start + 9)
    match parseUsize user_raw with
    | none => .ok (.error .ParseUserId)
    | some user =>
      if 9 ≤ user_start then
        .ok (.ok ⟨user, String.mk ((cs.drop 9).take (user_start - 9))⟩)
      else
        .panic "slice index starts at 9 but ends before it"

/-- The content rating of a post (`Rating` in `src/api.rs`, which derives
`PartialOrd`/`Ord`, ordering the variants by declaration order). -/
inductive Rating where
  | Safe
  | Questionable
  | Explicit
deriving DecidableEq, Repr, Fintype

/-- Discriminant of a `Rating` variant in declaration order; Rust's derived
`Ord` on a fieldless enum compares these discriminants. -/
def Rating.toNat : Rating → Nat
  | .Safe => 0
  | .Questionable => 1
  | .Explicit => 2

instance : LT Rating := ⟨fun a b => a.toNat < b.toNat⟩
instance : LE Rating := ⟨fun a b => a.toNat ≤ b.toNat⟩

instance (a b : Rating) : Decidable (a < b) :=
  inferInstanceAs (Decidable (a.toNat < b.toNat))
instance (a b : Rating) : Decidable (a ≤ b) :=
  inferInstanceAs (Decidable (a.toNat ≤ b.toNat))

/-- The lowercased debug name of a rating, as produced by
`format!("{:?}", rating).to_lowercase()` in the builders' `send`. -/
def Rating.lowerName : Rating → String
  | .Safe => "safe"
  | .Questionable => "questionable"
  | .Explicit => "explicit"

/-- Query-string parameter map (`QueryStrings` = `HashMap<&str, String>` in
`src/api.rs`).  A `HashMap` is an unordered finite map with distinct keys;
we model it as an association list where `qsInsert` replaces any existing
binding, so that lookups agree with the Rust map (iteration order is
irrelevant to every claim). -/
def qsInsert (qs : List (String × String)) (k v : String) : List (String × String) :=
  qs.filter (fun p => !(p.1 == k)) ++ [(k, v)]

/-- Lookup in the query-string parameter map. -/
def qsLookup (qs : List (String × String)) (k : String) : Option String :=
  (qs.find? (fun p => p.1 == k)).map (fun p => p.2)

/-- State of the posts request builder (`PostsRequestBuilder` in
`src/api.rs`). -/
structure PostsRequestBuilder where
  limit : Option Nat
  tags : List String
  tags_raw : String
  rating : Option Rating
  sort_random : Bool
deriving DecidableEq, Repr

/-- The `posts()` constructor (src/lib.rs:262-270): all fields empty. -/
def posts : PostsRequestBuilder :=
  { limit := none, tags := [], tags_raw := "", rating := none, sort_random := false }

/-- `PostsRequestBuilder::limit` (the method; renamed because the field is
already called `limit`). -/
def PostsRequestBuilder.set_limit (b : PostsRequestBuilder) (limit : Nat) : PostsRequestBuilder :=
  { b with limit := some limit }

/-- `PostsRequestBuilder::tag`: push one tag. -/
def PostsRequestBuilder.tag (b : PostsRequestBuilder) (t : String) : PostsRequestBuilder :=
  { b with tags := b.tags ++ [t] }

/-- `PostsRequestBuilder::tags` (renamed because the field is already called
`tags`): append the given tags, keeping earlier ones. -/
def PostsRequestBuilder.addTags (b : PostsRequestBuilder) (ts : List String) : PostsRequestBuilder :=
  { b with tags := b.tags ++ ts }

/-- `PostsRequestBuilder::tags_raw` (renamed because the field is already
called `tags_raw`): replace the raw-tag suffix. -/
def PostsRequestBuilder.set_tags_raw (b : PostsRequestBuilder) (raw : String) : PostsRequestBuilder :=
  { b with tags_raw := raw }

/-- `PostsRequestBuilder::clear_tags`: empty both the tag list and the raw
suffix. -/
def PostsRequestBuilder.clear_tags (b : PostsRequestBuilder) : PostsRequestBuilder :=
  { b with tags := [], tags_raw := "" }

/-- `PostsRequestBuilder::rating` (renamed because the field is already
called `rating`). -/
def PostsRequestBuilder.set_rating (b : PostsRequestBuilder) (r : Rating) : PostsRequestBuilder :=
  { b with rating := some r }

/-- `PostsRequestBuilder::random`. -/
def PostsRequestBuilder.random (b : PostsRequestBuilder) (r : Bool) : PostsRequestBuilder :=
  { b with sort_random := r }

/-- The tag-search expression assembled at the start of
`PostsRequestBuilder::send` (src/api.rs:280-292): the lowercased
`rating:<name>+` prefix when a rating is set, `sort:random+` when
randomizing, the tag list joined with `+`, and `+` followed by the raw
suffix when the raw suffix is non-empty. -/
def PostsRequestBuilder.compiledTags (b : PostsRequestBuilder) : String :=
  let t0 := match b.rating with
    | some r => "rating:" ++ r.lowerName ++ "+"
    | none => ""
  let t1 := if b.sort_random then t0 ++ "sort:random+" else t0
  let t2 := t1 ++ String.intercalate "+" b.tags
  if b.tags_raw = "" then t2 else t2 ++ "+" ++ b.tags_raw

/-- The query parameters inserted by `PostsRequestBuilder::send`
(src/api.rs:294-297) before authentication parameters are added. -/
def PostsRequestBuilder.sendQs (b : PostsRequestBuilder) : List (String × String) :=
  qsInsert (qsInsert (qsInsert [] "s" "post") "limit" (toString (b.limit.getD 100)))
    "tags" b.compiledTags

/-- Sort field for tag queries (`Ordering` in `src/api.rs`). -/
inductive Ordering where
  | Date
  | Count
  | Name
deriving DecidableEq, Repr

/-- Lowercased name sent as the `orderby` parameter
(src/api.rs:549-558). -/
def Ordering.lowerName : Ordering → String
  | .Date => "date"
  | .Count => "count"
  | .Name => "name"

/-- State of the tags request builder (`TagsRequestBuilder` in
`src/api.rs`). -/
structure TagsRequestBuilder where
  limit : Option Nat
  after_id : Option Nat
  order_by : Option Ordering
  ascending : Option Bool
deriving DecidableEq, Repr

/-- `TagsRequestBuilder::new`: all fields unset. -/
def TagsRequestBuilder.new : TagsRequestBuilder :=
  { limit := none, after_id := none, order_by := none, ascending := none }

/-- `TagsRequestBuilder::limit` (renamed because the field is already called
`limit`). -/
def TagsRequestBuilder.set_limit (b : TagsRequestBuilder) (limit : Nat) : TagsRequestBuilder :=
  { b with limit := some limit }

/-- `TagsRequestBuilder::after_id` (renamed; same clash). -/
def TagsRequestBuilder.set_after_id (b : TagsRequestBuilder) (id : Nat) : TagsRequestBuilder :=
  { b with after_id := some id }

/-- `TagsRequestBuilder::ascending` (renamed; same clash). -/
def TagsRequestBuilder.set_ascending (b : TagsRequestBuilder) (a : Bool) : TagsRequestBuilder :=
  { b with ascending := some a }

/-- `TagsRequestBuilder::order_by` (renamed; same clash). -/
def TagsRequestBuilder.set_order_by (b : TagsRequestBuilder) (o : Ordering) : TagsRequestBuilder :=
  { b with order_by := some o }

/-- Search mode for tag queries (`TagSearch` in `src/api.rs`):
`name(&client, n)` uses `Name`, `names(&client, ns)` uses `Names`, and
`pattern(&client, p)` uses `Pattern`; `send` passes no mode. -/
inductive TagSearch where
  | Name (name : String)
  | Names (names : List String)
  | Pattern (pat : String)
deriving DecidableEq, Repr

/-- The query parameters assembled by `TagsRequestBuilder::search`
(src/api.rs:527-574) before authentication parameters are added: the
effective limit defaults to 1 for a `Name` search, the number of names for
a `Names` search, and 100 otherwise; `after_id`, `orderby` and `order` are
inserted only when set, and the search mode contributes `name`, `names`
(plus-joined) or `name_pattern`. -/
def TagsRequestBuilder.searchQs (b : TagsRequestBuilder) (search : Option TagSearch) :
    List (String × String) :=
  let limit := b.limit.getD (match search with
    | some (.Name _) => 1
    | some (.Names names) => names.length
    | _ => 100)
  let qs := qsInsert [] "s" "tag"
  let qs := qsInsert qs "limit" (toString limit)
  let qs := match b.after_id with
    | some id => qsInsert qs "after_id" (toString id)
    | none => qs
  let qs := match b.order_by with
    | some o => qsInsert qs "orderby" o.lowerName
    | none => qs
  let qs := match b.ascending with
    | some a => qsInsert qs "order" (if a then "ASC" else "DESC")
    | none => qs
  match search with
  | some (.Name n) => qsInsert qs "name" n
  | some (.Names ns) => qsInsert qs "names" (String.intercalate "+" ns)
  | some (.Pattern p) => qsInsert qs "name_pattern" p
  | none => qs

/-- A post record as decoded from the wire (`Post` in `src/api.rs`). -/
structure Post where
  source : String
  directory : String
  height : Nat
  id : Nat
  image : String
  change : Nat
  owner : String
  parent_id : Option Nat
  rating : String
  sample : Nat
  preview_height : Nat
  preview_width : Nat
  sample_height : Nat
  sample_width : Nat
  score : Nat
  tags : String
  title : String
  width : Nat
  file_url : String
  created_at : String
  post_locked : Nat
deriving DecidableEq, Repr

/-- A tag record as decoded from the wire (`Tag` in `src/api.rs`): every
field, including `id`, `count` and `ambiguous`, is declared as a `String`
(`type` is `r#type` in the source). -/
structure Tag where
  id : String
  tag : String
  count : String
  type : String
  ambiguous : String
deriving DecidableEq, Repr

/-- `Post::rating` (src/api.rs:88-96): matches the one-byte slice
`&self.rating[0..1]` against "s"/"q"/"e"; the slice itself panics on an
empty string, and the match's default arm is `unreachable!`.  (On ASCII
input the one-byte slice is exactly the first character.) -/
def Post.ratingValue (p : Post) : PanicOr Rating :=
  match p.rating.toList with
  | [] => .panic "byte index 1 out of bounds"
  | 's' :: _ => .ok .Safe
  | 'q' :: _ => .ok .Questionable
  | 'e' :: _ => .ok .Explicit
  | _ => .panic "non-standard rating"

/-- `Post::tags` accessor (src/api.rs:102-104): split the whitespace-joined
tag string on single spaces. -/
def Post.tagsList (p : Post) : List String :=
  p.tags.splitOn " "

/-- The type of a tag (`TagType` in `src/api.rs`). -/
inductive TagType where
  | Artist
  | Character
  | Copyright
  | Deprecated
  | Metadata
  | Tag
deriving DecidableEq, Repr

/-- `Tag::tag_type` (src/api.rs:328-339): matches the raw type code against
the six known codes; the default arm is `unreachable!`. -/
def Tag.tag_type (t : Tag) : PanicOr TagType :=
  match t.type with
  | "artist" => .ok .Artist
  | "character" => .ok .Character
  | "copyright" => .ok .Copyright
  | "deprecated" => .ok .Deprecated
  | "metadata" => .ok .Metadata
  | "tag" => .ok .Tag
  | _ => .panic "non-standard tag type"

/-- `Tag::ambigious` (src/api.rs:341-347; the misspelling is the
source's): false exactly when the raw flag is the literal "0". -/
def Tag.ambigious (t : Tag) : Bool :=
  if t.ambiguous = "0" then false else true

/-! Timestamp parsing.  `Post::created_at` (src/api.rs:83-86) calls
`chrono::DateTime::parse_from_str(s, "%a %b %d %H:%M:%S %z %Y")` and
`expect`s the result.  The parser below follows chrono for that fixed
format: name items accept the abbreviated or full English name,
case-insensitively; a space in the format skips any run of whitespace;
numeric items read up to their field width in digits; `%z` requires a sign,
two hour digits, an optional colon, and two minute digits, with the total
offset under 24 hours; finally chrono checks that the parsed values form a
real calendar date, that hour/minute are in range (second 60 is allowed as
a leap second), that the named weekday agrees with the date, and that no
input remains. -/

/-- Drop a run of leading whitespace. -/
def skipWs (cs : List Char) : List Char :=
  cs.dropWhile Char.isWhitespace

/-- Read between one and `k` leading ASCII digits greedily, returning their
value and the rest of the input. -/
def takeDigits (cs : List Char) (k : Nat) : Option (Nat × List Char) :=
  let ds := (cs.take k).takeWhile Char.isDigit
  if ds.isEmpty then none
  else some (ds.foldl (fun acc c => acc * 10 + (c.toNat - 48)) 0, cs.drop ds.length)

/-- Read exactly `k` leading ASCII digits. -/
def takeExactDigits (cs : List Char) (k : Nat) : Option (Nat × List Char) :=
  let ds := (cs.take k).takeWhile Char.isDigit
  if ds.length = k then
    some (ds.foldl (fun acc c => acc * 10 + (c.toNat - 48)) 0, cs.drop ds.length)
  else none

/-- Require a specific leading character. -/
def expectChar (cs : List Char) (c : Char) : Option (List Char) :=
  match cs with
  | c2 :: rest => if c2 = c then some rest else none
  | [] => none

/-- English weekday names, abbreviated and full, with Sunday = 0. -/
def weekdayTable : List (String × Nat) :=
  [("sun", 0), ("mon", 1), ("tue", 2), ("wed", 3), ("thu", 4), ("fri", 5), ("sat", 6),
   ("sunday", 0), ("monday", 1), ("tuesday", 2), ("wednesday", 3), ("thursday", 4),
   ("friday", 5), ("saturday", 6)]

/-- English month names, abbreviated and full, numbered 1-12. -/
def monthTable : List (String × Nat) :=
  [("jan", 1), ("feb", 2), ("mar", 3), ("apr", 4), ("may", 5), ("jun", 6),
   ("jul", 7), ("aug", 8), ("sep", 9), ("oct", 10), ("nov", 11), ("dec", 12),
   ("january", 1), ("february", 2), ("march", 3), ("april", 4), ("june", 6),
   ("july", 7), ("august", 8), ("september", 9), ("october", 10), ("november", 11),
   ("december", 12)]

/-- Read the maximal alphabetic prefix, lowercase it, and look it up in a
name table. -/
def parseName (table : List (String × Nat)) (cs : List Char) : Option (Nat × List Char) :=
  let name := cs.takeWhile Char.isAlpha
  let lowered := String.mk (name.map Char.toLower)
  match table.find? (fun p => p.1 == lowered) with
  | some p => some (p.2, cs.drop name.length)
  | none => none

/-- Parse a `%z` UTC offset: sign, two hour digits, optional colon, two
minute digits; the result is in minutes and must be less than a full day in
magnitude (chrono's `FixedOffset` bound). -/
def parseOffset (cs : List Char) : Option (Int × List Char) := do
  let (sign, cs) ← match cs with
    | '+' :: rest => some ((1 : Int), rest)
    | '-' :: rest => some ((-1 : Int), rest)
    | _ => none
  let (h, cs) ← takeExactDigits cs 2
  let cs := match cs with
    | ':' :: rest => rest
    | _ => cs
  let (m, cs) ← takeExactDigits cs 2
  let total := sign * ((h : Int) * 60 + m)
  if total.natAbs < 24 * 60 then some (total, cs) else none

/-- Parse a `%Y` year: optional sign and up to five digits. -/
def parseYearNum (cs : List Char) : Option (Int × List Char) :=
  match cs with
  | '+' :: rest => (takeDigits rest 5).map (fun p => ((p.1 : Int), p.2))
  | '-' :: rest => (takeDigits rest 5).map (fun p => (-(p.1 : Int), p.2))
  | _ => (takeDigits cs 5).map (fun p => ((p.1 : Int), p.2))

/-- Gregorian leap-year test. -/
def isLeapYear (y : Int) : Bool :=
  (y.emod 4 == 0 && y.emod 100 != 0) || y.emod 400 == 0

/-- Number of days in a month (0 for an invalid month number). -/
def daysInMonth (y : Int) (m : Nat) : Nat :=
  match m with
  | 1 => 31
  | 2 => if isLeapYear y then 29 else 28
  | 3 => 31
  | 4 => 30
  | 5 => 31
  | 6 => 30
  | 7 => 31
  | 8 => 31
  | 9 => 30
  | 10 => 31
  | 11 => 30
  | 12 => 31
  | _ => 0

/-- Day of the week of a Gregorian date (Sakamoto's method), Sunday = 0. -/
def sakamotoWeekday (y : Int) (m d : Nat) : Nat :=
  let t : List Int := [0, 3, 2, 5, 0, 3, 5, 1, 4, 6, 2, 4]
  let y := if m < 3 then y - 1 else y
  ((y + y.fdiv 4 - y.fdiv 100 + y.fdiv 400 + t.getD (m - 1) 0 + (d : Int)).fmod 7).toNat

/-- The result of a successful fixed-format timestamp parse: a calendar
date-time together with its fixed UTC offset in minutes (the data of a
chrono `DateTime<FixedOffset>`). -/
structure ParsedDateTime where
  year : Int
  month : Nat
  day : Nat
  hour : Nat
  minute : Nat
  second : Nat
  offsetMinutes : Int
deriving DecidableEq, Repr

/-- Parse a timestamp in the fixed format `"%a %b %d %H:%M:%S %z %Y"`,
returning `none` exactly when chrono's parse-and-resolve fails. -/
def parseDateTimeFixed (s : String) : Option ParsedDateTime := do
  let cs := s.toList
  let (wd, cs) ← parseName weekdayTable cs
  let cs := skipWs cs
  let (month, cs) ← parseName monthTable cs
  let cs := skipWs cs
  let (day, cs) ← takeDigits cs 2
  let cs := skipWs cs
  let (hour, cs) ← takeDigits cs 2
  let cs ← expectChar cs ':'
  let (minute, cs) ← takeDigits cs 2
  let cs ← expectChar cs ':'
  let (second, cs) ← takeDigits cs 2
  let cs := skipWs cs
  let (offset, cs) ← parseOffset cs
  let cs := skipWs cs
  let (year, cs) ← parseYearNum cs
  if cs.isEmpty ∧ 1 ≤ day ∧ day ≤ daysInMonth year month ∧ hour ≤ 23 ∧ minute ≤ 59 ∧
      second ≤ 60 ∧ sakamotoWeekday year month day = wd then
    some ⟨year, month, day, hour, minute, second, offset⟩
  else none

/-- `Post::created_at` accessor (src/api.rs:83-86; renamed because the raw
field is already called `created_at`): parse the fixed-format timestamp and
`expect` the result — a parse failure is a panic, not an error return. -/
def Post.createdAtValue (p : Post) : PanicOr ParsedDateTime :=
  match parseDateTimeFixed p.created_at with
  | some dt => .ok dt
  | none => .panic "failed to parse DateTime"

/-! JSON decoding.  The response envelopes are decoded by serde's derived
`Deserialize` impls for `Attributes`, `PostQuery`, `TagQuery`, `Post` and
`Tag` (src/api.rs:19-66, 304-311).  The JSON value type below carries only
integer numbers, which covers every numeric field of the schema; objects
are association lists with distinct keys (serde rejects duplicate fields,
so well-formed inputs never depend on the choice of the first binding). -/

/-- A JSON value. -/
inductive Json where
  | null
  | bool (b : Bool)
  | num (n : Int)
  | str (s : String)
  | arr (items : List Json)
  | obj (fields : List (String × Json))

/-- Look up a field of a JSON object's field list. -/
def jsonField (fields : List (String × Json)) (k : String) : Option Json :=
  (fields.find? (fun p => p.1 == k)).map (fun p => p.2)

/-- Decode a JSON value as a Rust `String`: only a JSON string is
accepted (serde's behavior — in particular a JSON number is a type
error). -/
def decodeString : Json → Except String String
  | .str s => .ok s
  | _ => .error "invalid type: expected a string"

/-- Decode a JSON value as a `u64`/`usize`: a non-negative integer below
2^64. -/
def decodeU64 : Json → Except String Nat
  | .num n => if 0 ≤ n ∧ n < 2 ^ 64 then .ok n.toNat else .error "invalid value: out of range"
  | _ => .error "invalid type: expected an unsigned integer"

/-- Decode a JSON value as an `Option<u64>` (serde: `null` is `None`). -/
def decodeOptU64 : Json → Except String (Option Nat)
  | .null => .ok none
  | j => (decodeU64 j).map some

/-- Decode a required field: missing fields are an error (serde's default
for fields without `#[serde(default)]`). -/
def reqField (fields : List (String × Json)) (k : String) (dec : Json → Except String α) :
    Except String α :=
  match jsonField fields k with
  | some j => dec j
  | none => .error ("missing field " ++ k)

/-- Decode a required `Option` field: a missing `Option` field is `None`
(serde's special handling of `Option`). -/
def optField (fields : List (String × Json)) (k : String)
    (dec : Json → Except String (Option α)) : Except String (Option α) :=
  match jsonField fields k with
  | some j => dec j
  | none => .ok none

/-- Decode every element of a JSON array. -/
def decodeList (dec : Json → Except String α) : Json → Except String (List α)
  | .arr items => items.mapM dec
  | _ => .error "invalid type: expected a sequence"

/-- Response envelope metadata (`Attributes` in `src/api.rs`). -/
structure Attributes where
  limit : Nat
  offset : Nat
  count : Nat
deriving DecidableEq, Repr

/-- Response envelope for posts (`PostQuery` in `src/api.rs`): the
`@attributes` object plus the `post` array. -/
structure PostQuery where
  attributes : Attributes
  posts : List Post
deriving DecidableEq, Repr

/-- Response envelope for tags (`TagQuery` in `src/api.rs`): the
`@attributes` object plus the `tag` array. -/
structure TagQuery where
  attributes : Attributes
  tags : List Tag
deriving DecidableEq, Repr

/-- Derived decode of `Attributes` (all three fields required `usize`). -/
def decodeAttributes : Json → Except String Attributes
  | .obj fields => do
    let limit ← reqField fields "limit" decodeU64
    let offset ← reqField fields "offset" decodeU64
    let count ← reqField fields "count" decodeU64
    pure ⟨limit, offset, count⟩
  | _ => .error "invalid type: expected a map"

/-- Derived decode of `Post`: each field with its declared Rust type. -/
def decodePost : Json → Except String Post
  | .obj fields => do
    let source ← reqField fields "source" decodeString
    let directory ← reqField fields "directory" decodeString
    let height ← reqField fields "height" decodeU64
    let id ← reqField fields "id" decodeU64
    let image ← reqField fields "image" decodeString
    let change ← reqField fields "change" decodeU64
    let owner ← reqField fields "owner" decodeString
    let parent_id ← optField fields "parent_id" decodeOptU64
    let rating ← reqField fields "rating" decodeString
    let sample ← reqField fields "sample" decodeU64
    let preview_height ← reqField fields "preview_height" decodeU64
    let preview_width ← reqField fields "preview_width" decodeU64
    let sample_height ← reqField fields "sample_height" decodeU64
    let sample_width ← reqField fields "sample_width" decodeU64
    let score ← reqField fields "score" decodeU64
    let tags ← reqField fields "tags" decodeString
    let title ← reqField fields "title" decodeString
    let width ← reqField fields "width" decodeU64
    let file_url ← reqField fields "file_url" decodeString
    let created_at ← reqField fields "created_at" decodeString
    let post_locked ← reqField fields "post_locked" decodeU64
    pure ⟨source, directory, height, id, image, change, owner, parent_id, rating, sample,
      preview_height, preview_width, sample_height, sample_width, score, tags, title,
      width, file_url, created_at, post_locked⟩
  | _ => .error "invalid type: expected a map"

/-- Derived decode of `Tag`: all five fields are required `String`s. -/
def decodeTag : Json → Except String Tag
  | .obj fields => do
    let id ← reqField fields "id" decodeString
    let tag ← reqField fields "tag" decodeString
    let count ← reqField fields "count" decodeString
    let ty ← reqField fields "type" decodeString
    let ambiguous ← reqField fields "ambiguous" decodeString
    pure ⟨id, tag, count, ty, ambiguous⟩
  | _ => .error "invalid type: expected a map"

/-- Derived decode of `PostQuery`: `@attributes` is required; the `post`
array carries `#[serde(default = "Vec::new")]`, so an absent key decodes to
the empty list. -/
def decodePostQuery : Json → Except String PostQuery
  | .obj fields => do
    let attributes ← reqField fields "@attributes" decodeAttributes
    let posts ← match jsonField fields "post" with
      | some j => decodeList decodePost j
      | none => pure []
    pure ⟨attributes, posts⟩
  | _ => .error "invalid type: expected a map"

/-- Derived decode of `TagQuery`: `@attributes` is required; the `tag`
array carries `#[serde(default = "Vec::new")]`, so an absent key decodes to
the empty list. -/
def decodeTagQuery : Json → Except String TagQuery
  | .obj fields => do
    let attributes ← reqField fields "@attributes" decodeAttributes
    let tags ← match jsonField fields "tag" with
      | some j => decodeList decodeTag j
      | none => pure []
    pure ⟨attributes, tags⟩
  | _ => .error "invalid type: expected a map"

/-- A post record with the given raw rating and timestamp strings and
defaulted remaining fields, used to instantiate accessor theorems. -/
def samplePost (rating created_at : String) : Post :=
  { source := "", directory := "", height := 0, id := 0, image := "", change := 0,
    owner := "", parent_id := none, rating := rating, sample := 0, preview_height := 0,
    preview_width := 0, sample_height := 0, sample_width := 0, score := 0, tags := "",
    title := "", width := 0, file_url := "", created_at := created_at, post_locked := 0 }

/-! Helper lemmas about the query-string map. -/

/-- Looking up the key just inserted returns the inserted value. -/
theorem qsLookup_qsInsert_self (qs : List (String × String)) (k v : String) :
    qsLookup (qsInsert qs k v) k = some v := by
  unfold qsLookup qsInsert
  rw [List.find?_append]
  have hl : List.find? (fun p => p.1 == k) (qs.filter (fun p => !(p.1 == k))) = none := by
    rw [List.find?_eq_none]
    intro x hx
    have hf := List.of_mem_filter hx
    simpa using hf
  rw [hl]
  simp [List.find?]

/-- Looking up a different key is unaffected by an insertion. -/
theorem qsLookup_qsInsert_ne (qs : List (String × String)) (k v k2 : String)
    (h : k2 ≠ k) : qsLookup (qsInsert qs k v) k2 = qsLookup qs k2 := by
  unfold qsLookup qsInsert
  rw [List.find?_append]
  have h1 : List.find? (fun p => p.1 == k2) [(k, v)] = none := by
    rw [List.find?_cons_of_neg]
    · rfl
    · simp only [beq_iff_eq]
      exact fun hc => h hc.symm
  rw [h1, List.find?_filter]
  have h2 : ∀ a : String × String,
      (decide ((!(a.1 == k)) = true ∧ (a.1 == k2) = true)) = (a.1 == k2) := by
    intro a
    by_cases ha : a.1 = k2
    · have hak : ¬ a.1 = k := by rw [ha]; exact h
      simp [ha, hak, h]
    · simp [ha]
  simp only [Option.or_none, h2]

/-- `findSub` returns `none` exactly when the pattern occurs at no
position. -/
theorem findSub_eq_none_iff (hay pat : List Char) :
    findSub hay pat = none ↔ ∀ i : Nat, (hay.drop i).take pat.length ≠ pat := by
  unfold findSub
  rw [List.find?_eq_none]
  constructor
  · intro h i
    by_cases hi : i < hay.length + 1
    · have := h i (List.mem_range.mpr hi)
      simpa using this
    · intro hc
      have hd : hay.drop i = [] := List.drop_eq_nil_of_le (by omega)
      rw [hd, List.take_nil] at hc
      have h0 := h 0 (List.mem_range.mpr (by omega))
      simp [← hc] at h0
  · intro h i _
    simpa using h i

/-- The `limit` parameter produced by `TagsRequestBuilder::search` is the
caller's limit when set, else the mode-dependent default. -/
theorem searchQs_lookup_limit (b : TagsRequestBuilder) (search : Option TagSearch) :
    qsLookup (b.searchQs search) "limit" =
      some (toString (b.limit.getD (match search with
        | some (.Name _) => 1
        | some (.Names ns) => ns.length
        | _ => 100))) := by
  obtain ⟨limit, after_id, order_by, ascending⟩ := b
  cases search with
  | none => cases after_id <;> cases order_by <;> cases ascending <;> rfl
  | some s => cases s <;> cases after_id <;> cases order_by <;> cases ascending <;> rfl

/-- If a required string field decodes successfully, the underlying JSON
field is present and holds exactly that string. -/
theorem reqField_decodeString_ok (fields : List (String × Json)) (k v : String)
    (h : reqField fields k decodeString = .ok v) :
    jsonField fields k = some (.str v) := by
  unfold reqField at h
  cases hj : jsonField fields k with
  | none => rw [hj] at h; exact Except.noConfusion h
  | some j =>
    rw [hj] at h
    cases j with
    | str s =>
      simp only [decodeString] at h
      injection h with hv
      rw [hv]
    | null => exact Except.noConfusion h
    | bool b => exact Except.noConfusion h
    | num m => exact Except.noConfusion h
    | arr items => exact Except.noConfusion h
    | obj fs => exact Except.noConfusion h

/-- Inversion of a successful Tag decode: every one of the five fields is
present in the object and holds the corresponding string. -/
theorem decodeTag_ok_fields (fields : List (String × Json)) (t : Tag)
    (h : decodeTag (.obj fields) = .ok t) :
    jsonField fields "id" = some (.str t.id) ∧
    jsonField fields "tag" = some (.str t.tag) ∧
    jsonField fields "count" = some (.str t.count) ∧
    jsonField fields "type" = some (.str t.type) ∧
    jsonField fields "ambiguous" = some (.str t.ambiguous) := by
  simp only [decodeTag] at h
  cases h1 : reqField fields "id" decodeString with
  | error e => simp [h1, Except.bind, Bind.bind] at h
  | ok v1 =>
  simp only [h1, Except.bind, Bind.bind] at h
  cases h2 : reqField fields "tag" decodeString with
  | error e => simp [h2, Except.bind, Bind.bind] at h
  | ok v2 =>
  simp only [h2, Except.bind, Bind.bind] at h
  cases h3 : reqField fields "count" decodeString with
  | error e => simp [h3, Except.bind, Bind.bind] at h
  | ok v3 =>
  simp only [h3, Except.bind, Bind.bind] at h
  cases h4 : reqField fields "type" decodeString with
  | error e => simp [h4, Except.bind, Bind.bind] at h
  | ok v4 =>
  simp only [h4, Except.bind, Bind.bind] at h
  cases h5 : reqField fields "ambiguous" decodeString with
  | error e => simp [h5, Except.bind, Bind.bind] at h
  | ok v5 =>
  simp only [h5, Except.bind, Bind.bind, pure, Except.pure, Except.ok.injEq] at h
  subst h
  exact ⟨reqField_decodeString_ok _ _ _ h1, reqField_decodeString_ok _ _ _ h2,
    reqField_decodeString_ok _ _ _ h3, reqField_decodeString_ok _ _ _ h4,
    reqField_decodeString_ok _ _ _ h5⟩

/-- C1 counterexample: at concrete out-of-vocabulary inputs each derived
accessor aborts with a panic (`unreachable!` / `expect`) instead of
returning a recoverable error value: `Post::rating` on code "x",
`Tag::tag_type` on code "pool", and `Post::created_at` on a string that
fails the fixed-format parse. -/
theorem accessors_panic_on_out_of_vocab_counterexample :
    (samplePost "x" "").ratingValue = .panic "non-standard rating" ∧
    Tag.tag_type ⟨"1", "pool", "0", "pool", "0"⟩ = .panic "non-standard tag type" ∧
    (samplePost "s" "not a date").createdAtValue = .panic "failed to parse DateTime" :=
  ⟨rfl, rfl, rfl⟩

/-- C1 (amended): on every out-of-vocabulary value the derived accessors
abort with a panic rather than surfacing a recoverable error: a rating
string starting with a character outside {s,q,e} (or empty), a tag type
code outside the six known codes, and a timestamp failing the fixed-format
parse all panic. -/
theorem accessors_panic_on_out_of_vocab :
    (∀ (p : Post) (c : Char) (cs : List Char), p.rating.toList = c :: cs →
      c ≠ 's' → c ≠ 'q' → c ≠ 'e' → p.ratingValue = .panic "non-standard rating") ∧
    (∀ p : Post, p.rating = "" → p.ratingValue = .panic "byte index 1 out of bounds") ∧
    (∀ t : Tag,
      t.type ∉ (["artist", "character", "copyright", "deprecated", "metadata", "tag"] : List String) →
      t.tag_type = .panic "non-standard tag type") ∧
    (∀ p : Post, parseDateTimeFixed p.created_at = none →
      p.createdAtValue = .panic "failed to parse DateTime") := by
  refine ⟨?_, ?_, ?_, ?_⟩
  · intro p c cs hl h1 h2 h3
    unfold Post.ratingValue
    rw [hl]
    split <;> simp_all
  · intro p h
    unfold Post.ratingValue
    rw [h]
    rfl
  · intro t h
    simp only [List.mem_cons, List.not_mem_nil, or_false, not_or] at h
    unfold Tag.tag_type
    split <;> simp_all
  · intro p h
    unfold Post.createdAtValue
    rw [h]

/-- C1 witness: the amended statement applied at concrete inputs. -/
theorem accessors_panic_on_out_of_vocab_witness :
    (samplePost "x?" "").ratingValue = .panic "non-standard rating" ∧
    (samplePost "" "").ratingValue = .panic "byte index 1 out of bounds" ∧
    Tag.tag_type ⟨"2", "favorites", "0", "favorites", "0"⟩ = .panic "non-standard tag type" ∧
    (samplePost "s" "2006-01-02").createdAtValue = .panic "failed to parse DateTime" :=
  ⟨accessors_panic_on_out_of_vocab.1 _ 'x' ['?'] rfl (by decide) (by decide) (by decide),
   accessors_panic_on_out_of_vocab.2.1 _ rfl,
   accessors_panic_on_out_of_vocab.2.2.1 _ (by decide),
   accessors_panic_on_out_of_vocab.2.2.2 _ rfl⟩

/-- C2 counterexample: on the spec's sample input "ABCDEF&user_id=42" the
credential parser panics (the key slice `qs[9..6]` has its start after its
end) instead of returning the credential pair. -/
theorem from_query_string_spec_input_panics :
    AuthDetails.from_query_string "ABCDEF&user_id=42" =
      .panic "slice index starts at 9 but ends before it" := rfl

/-- C2 (amended): credential parsing on a blob whose `&user_id=` marker
starts at or after index 9, such as "&api_key=ABCDEF&user_id=42", yields
key "ABCDEF" and user id 42; on "ABCDEF&user_id=42" itself it panics; and
every input without the `&user_id=` marker yields the ParseAuth
(CredentialParse) error, without crashing. -/
theorem from_query_string_behavior :
    AuthDetails.from_query_string "&api_key=ABCDEF&user_id=42" = .ok (.ok ⟨42, "ABCDEF"⟩) ∧
    AuthDetails.from_query_string "ABCDEF&user_id=42" =
      .panic "slice index starts at 9 but ends before it" ∧
    (∀ qs : String, findSub qs.toList "&user_id=".toList = none →
      AuthDetails.from_query_string qs = .ok (.error .ParseAuth)) := by
  refine ⟨rfl, rfl, fun qs h => ?_⟩
  unfold AuthDetails.from_query_string
  simp only [h]

/-- C2 witness: the amended statement applied at a concrete markerless
input. -/
theorem from_query_string_behavior_witness :
    AuthDetails.from_query_string "hello" = .ok (.error .ParseAuth) :=
  from_query_string_behavior.2.2 "hello" (by decide)

/-- C3 counterexample: for tags ["hatsune_miku","solo"], rating Safe and
raw suffix "rating:s", the compiled tag expression is not the space-
separated concatenation the claim describes. -/
theorem compiled_tags_not_space_separated :
    (((posts.addTags ["hatsune_miku", "solo"]).set_rating .Safe).set_tags_raw
        "rating:s").compiledTags ≠ "rating:safe hatsune_miku solo rating:s" := by
  decide

/-- C3 (amended): the compiled tag expression is "rating:safe", then
"hatsune_miku", then "solo", then the raw suffix, in that fixed order, but
with each adjacent pair separated by a single '+' character (the
URL-encoded space), not a literal space; `send` passes exactly this string
as the `tags` parameter. -/
theorem compiled_tags_plus_separated :
    (((posts.addTags ["hatsune_miku", "solo"]).set_rating .Safe).set_tags_raw
        "rating:s").compiledTags = "rating:safe+hatsune_miku+solo+rating:s" ∧
    qsLookup ((((posts.addTags ["hatsune_miku", "solo"]).set_rating .Safe).set_tags_raw
        "rating:s").sendQs) "tags" = some "rating:safe+hatsune_miku+solo+rating:s" :=
  ⟨rfl, rfl⟩

/-- C4 counterexample: after `clear_tags()` and `add_tags(["a","b"])` the
compiled tag list is not the space-joined "a b" (the list is plus-joined). -/
theorem clear_then_add_tags_not_space_joined :
    ((posts.tag "x").clear_tags.addTags ["a", "b"]).compiledTags ≠ "a b" := by
  decide

/-- C4 (amended): for every prior builder state, `clear_tags()` empties
both the tag list and the raw suffix, so that a following
`add_tags(["a","b"])` leaves exactly the tags ["a","b"], whose joined form
in the compiled expression is "a+b" (plus-joined, not space-joined),
independent of the prior state. -/
theorem clear_then_add_tags_plus_joined :
    ∀ b : PostsRequestBuilder,
      (b.clear_tags.addTags ["a", "b"]).tags = ["a", "b"] ∧
      (b.clear_tags.addTags ["a", "b"]).tags_raw = "" ∧
      String.intercalate "+" (b.clear_tags.addTags ["a", "b"]).tags = "a+b" :=
  fun _ => ⟨rfl, rfl, rfl⟩

/-- C5: with no explicit limit, the `limit` parameter sent by the tag
search is 1 in name mode, the number of requested names in names mode, and
100 in pattern mode; an explicitly set limit is sent unchanged in every
mode. -/
theorem tag_search_limit_defaults :
    (∀ (b : TagsRequestBuilder) (n : String), b.limit = none →
      qsLookup (b.searchQs (some (.Name n))) "limit" = some "1") ∧
    (∀ (b : TagsRequestBuilder) (ns : List String), b.limit = none →
      qsLookup (b.searchQs (some (.Names ns))) "limit" = some (toString ns.length)) ∧
    (∀ (b : TagsRequestBuilder) (pat : String), b.limit = none →
      qsLookup (b.searchQs (some (.Pattern pat))) "limit" = some "100") ∧
    (∀ (b : TagsRequestBuilder) (k : Nat) (search : Option TagSearch), b.limit = some k →
      qsLookup (b.searchQs search) "limit" = some (toString k)) := by
  refine ⟨fun b n h => ?_, fun b ns h => ?_, fun b pat h => ?_, fun b k search h => ?_⟩ <;>
    rw [searchQs_lookup_limit, h]
  · show some (toString (1 : Nat)) = some "1"
    decide
  · rfl
  · show some (toString (100 : Nat)) = some "100"
    decide
  · rfl

/-- C5 witness: the statement applied at concrete builders and searches. -/
theorem tag_search_limit_defaults_witness :
    qsLookup (TagsRequestBuilder.new.searchQs (some (.Name "solo"))) "limit" = some "1" ∧
    qsLookup (TagsRequestBuilder.new.searchQs (some (.Names ["a", "b", "c"]))) "limit" =
      some "3" ∧
    qsLookup (TagsRequestBuilder.new.searchQs (some (.Pattern "%o_o"))) "limit" = some "100" ∧
    qsLookup ((TagsRequestBuilder.new.set_limit 7).searchQs (some (.Name "solo"))) "limit" =
      some "7" :=
  ⟨tag_search_limit_defaults.1 _ "solo" rfl,
   tag_search_limit_defaults.2.1 _ ["a", "b", "c"] rfl,
   tag_search_limit_defaults.2.2.1 _ "%o_o" rfl,
   tag_search_limit_defaults.2.2.2 _ 7 _ rfl⟩

/-- C6: rating codes "s", "q", "e" map to Safe, Questionable and Explicit
respectively, and the Rating enum is totally ordered (total, antisymmetric,
transitive) with Safe < Questionable < Explicit. -/
theorem rating_mapping_and_order :
    (∀ p : Post, p.rating = "s" → p.ratingValue = .ok .Safe) ∧
    (∀ p : Post, p.rating = "q" → p.ratingValue = .ok .Questionable) ∧
    (∀ p : Post, p.rating = "e" → p.ratingValue = .ok .Explicit) ∧
    Rating.Safe < Rating.Questionable ∧ Rating.Questionable < Rating.Explicit ∧
    (∀ a b : Rating, a ≤ b ∨ b ≤ a) ∧
    (∀ a b : Rating, a ≤ b → b ≤ a → a = b) ∧
    (∀ a b c : Rating, a ≤ b → b ≤ c → a ≤ c) := by
  refine ⟨?_, ?_, ?_, by decide, by decide, by decide, by decide, by decide⟩ <;>
    · intro p h
      unfold Post.ratingValue
      rw [h]
      rfl

/-- C6 witness: the statement applied at concrete posts with each rating
code. -/
theorem rating_mapping_and_order_witness :
    (samplePost "s" "").ratingValue = .ok .Safe ∧
    (samplePost "q" "").ratingValue = .ok .Questionable ∧
    (samplePost "e" "").ratingValue = .ok .Explicit :=
  ⟨rating_mapping_and_order.1 _ rfl, rating_mapping_and_order.2.1 _ rfl,
   rating_mapping_and_order.2.2.1 _ rfl⟩

/-- C7: `Tag::ambigious` returns false exactly when the raw ambiguous flag
is the literal "0", and returns true for "1" and "2" in particular. -/
theorem ambigious_iff_not_zero :
    (∀ t : Tag, t.ambigious = false ↔ t.ambiguous = "0") ∧
    Tag.ambigious ⟨"1", "x", "0", "tag", "1"⟩ = true ∧
    Tag.ambigious ⟨"2", "x", "0", "tag", "2"⟩ = true := by
  refine ⟨fun t => ?_, rfl, rfl⟩
  unfold Tag.ambigious
  by_cases h : t.ambiguous = "0" <;> simp [h]

/-- C7 witness: the iff applied at a concrete tag whose flag is "0". -/
theorem ambigious_iff_not_zero_witness :
    Tag.ambigious ⟨"0", "x", "0", "tag", "0"⟩ = false :=
  (ambigious_iff_not_zero.1 ⟨"0", "x", "0", "tag", "0"⟩).mpr rfl

/-- C8: decoding an envelope whose item array key ("post" / "tag") is
absent succeeds with an empty item list whenever the attributes decode
succeeds. -/
theorem absent_item_array_decodes_empty :
    (∀ (fields : List (String × Json)) (a : Attributes),
      reqField fields "@attributes" decodeAttributes = .ok a →
      jsonField fields "post" = none →
      decodePostQuery (.obj fields) = .ok ⟨a, []⟩) ∧
    (∀ (fields : List (String × Json)) (a : Attributes),
      reqField fields "@attributes" decodeAttributes = .ok a →
      jsonField fields "tag" = none →
      decodeTagQuery (.obj fields) = .ok ⟨a, []⟩) := by
  constructor <;> intro fields a ha hmiss <;>
    simp [decodePostQuery, decodeTagQuery, ha, hmiss, Except.bind, Bind.bind, pure,
      Except.pure]

/-- C8 witness: the statement applied at a concrete envelope with
attributes only. -/
theorem absent_item_array_decodes_empty_witness :
    decodePostQuery (.obj [("@attributes",
        .obj [("limit", .num 100), ("offset", .num 0), ("count", .num 5)])]) =
      .ok ⟨⟨100, 0, 5⟩, []⟩ ∧
    decodeTagQuery (.obj [("@attributes",
        .obj [("limit", .num 20), ("offset", .num 0), ("count", .num 0)])]) =
      .ok ⟨⟨20, 0, 0⟩, []⟩ :=
  ⟨absent_item_array_decodes_empty.1 _ ⟨100, 0, 5⟩ rfl rfl,
   absent_item_array_decodes_empty.2 _ ⟨20, 0, 0⟩ rfl rfl⟩

/-- C9 counterexample: the Tag record decode rejects native numeric wire
values — an object carrying numeric id/count/ambiguous fails with a type
error instead of succeeding. -/
theorem tag_decode_rejects_numeric_wire :
    decodeTag (.obj [("id", .num 1), ("tag", .str "solo"), ("count", .num 5),
      ("type", .str "tag"), ("ambiguous", .num 0)]) =
      .error "invalid type: expected a string" := rfl

/-- C9 (amended): the single Tag schema in the source declares id, count
and ambiguous as strings, so the decode accepts only the numeric-string
wire shape: a native numeric value in any of the id, count or ambiguous
fields makes the decode fail (it never yields a Tag), and in particular a
numeric id fails with the string type error. -/
theorem tag_decode_string_only :
    decodeTag (.obj [("id", .str "1"), ("tag", .str "solo"), ("count", .str "5"),
      ("type", .str "tag"), ("ambiguous", .str "0")]) = .ok ⟨"1", "solo", "5", "tag", "0"⟩ ∧
    (∀ (fields : List (String × Json)) (n : Int),
      (jsonField fields "id" = some (.num n) ∨ jsonField fields "count" = some (.num n) ∨
        jsonField fields "ambiguous" = some (.num n)) →
      ∀ t : Tag, decodeTag (.obj fields) ≠ .ok t) ∧
    (∀ (fields : List (String × Json)) (n : Int), jsonField fields "id" = some (.num n) →
      decodeTag (.obj fields) = .error "invalid type: expected a string") := by
  refine ⟨rfl, fun fields n hdisj t hok => ?_, fun fields n h => ?_⟩
  · obtain ⟨hid, htag, hcount, hty, hamb⟩ := decodeTag_ok_fields fields t hok
    rcases hdisj with h | h | h
    · rw [hid] at h
      exact Json.noConfusion (Option.some.inj h)
    · rw [hcount] at h
      exact Json.noConfusion (Option.some.inj h)
    · rw [hamb] at h
      exact Json.noConfusion (Option.some.inj h)
  · simp [decodeTag, reqField, h, decodeString, Except.bind, Bind.bind]

/-- C9 witness: the amended statement applied at concrete objects — one
with a numeric id, and one all-string except for a numeric count. -/
theorem tag_decode_string_only_witness :
    decodeTag (.obj [("id", .num 7)]) = .error "invalid type: expected a string" ∧
    decodeTag (.obj [("id", .str "1"), ("tag", .str "solo"), ("count", .num 5),
      ("type", .str "tag"), ("ambiguous", .str "0")]) ≠ .ok ⟨"1", "solo", "5", "tag", "0"⟩ :=
  ⟨tag_decode_string_only.2.2 [("id", .num 7)] 7 rfl,
   tag_decode_string_only.2.1 [("id", .str "1"), ("tag", .str "solo"), ("count", .num 5),
     ("type", .str "tag"), ("ambiguous", .str "0")] 5 (Or.inr (Or.inl rfl)) _⟩

/-- C10: `Post::rating` inspects only the first character of the raw
rating string — every string starting with 's', 'q' or 'e' (such as the
full words) maps to the corresponding Rating — and on the empty rating
string the accessor panics (the one-byte slice is out of bounds) instead
of returning a value or a recoverable error. -/
theorem rating_first_char_only :
    (∀ p : Post, p.rating.toList.head? = some 's' → p.ratingValue = .ok .Safe) ∧
    (∀ p : Post, p.rating.toList.head? = some 'q' → p.ratingValue = .ok .Questionable) ∧
    (∀ p : Post, p.rating.toList.head? = some 'e' → p.ratingValue = .ok .Explicit) ∧
    (∀ p : Post, p.rating = "" → p.ratingValue = .panic "byte index 1 out of bounds") := by
  refine ⟨?_, ?_, ?_, fun p h => by unfold Post.ratingValue; rw [h]; rfl⟩ <;>
    · intro p h
      unfold Post.ratingValue
      rcases hl : p.rating.toList with _ | ⟨c, rest⟩
      · rw [hl] at h
        cases h
      · rw [hl] at h
        simp only [List.head?_cons, Option.some.injEq] at h
        rw [h]
        rfl

/-- C10 witness: the statement applied at full-word rating strings and the
empty string. -/
theorem rating_first_char_only_witness :
    (samplePost "safe" "").ratingValue = .ok .Safe ∧
    (samplePost "questionable" "").ratingValue = .ok .Questionable ∧
    (samplePost "explicit" "").ratingValue = .ok .Explicit ∧
    (samplePost "" "").ratingValue = .panic "byte index 1 out of bounds" :=
  ⟨rating_first_char_only.1 _ rfl, rating_first_char_only.2.1 _ rfl,
   rating_first_char_only.2.2.1 _ rfl, rating_first_char_only.2.2.2 _ rfl⟩

end Gelbooru
